import Mathlib

/-!
Verification of the hydro deployment API surface (src/hydro_cli/hydro/__init__.py)
against its specification. The Python layer is a thin wrapper over an engine
exposed as `hydro_cli_rust`; the wrapper is embedded directly from the source,
and the engine behaviour that the wrapper delegates to is modelled from the
specification where noted.
-/

/-- The underlying deployment handle produced by `hydro_cli_rust.create_Deployment`,
treated as an opaque identifier. -/
abbrev UnderlyingDeployment := Nat

/-- Underlying host handles produced by the engine constructors; each records
exactly the arguments the Python wrapper passes down. -/
inductive UnderlyingHost
  | localhostHost (deployment : UnderlyingDeployment)
deriving DecidableEq

/-- Underlying service handles produced by the engine constructors; each records
exactly the arguments the Python wrapper passes down. -/
inductive UnderlyingService
  | hydroflowCrate (src : String) (host : UnderlyingHost) (deployment : UnderlyingDeployment)
deriving DecidableEq

/-- `hydro_cli_rust.create_LocalhostHost`: constructs the underlying host from the
underlying deployment it is given. -/
def create_LocalhostHost (deployment : UnderlyingDeployment) : UnderlyingHost :=
  .localhostHost deployment

/-- `hydro_cli_rust.create_HydroflowCrate`: constructs the underlying service from
the source path, the underlying host and the underlying deployment it is given. -/
def create_HydroflowCrate (src : String) (host : UnderlyingHost)
    (deployment : UnderlyingDeployment) : UnderlyingService :=
  .hydroflowCrate src host deployment

/-- `class Deployment`: wraps the underlying deployment handle. -/
structure Deployment where
  underlying : UnderlyingDeployment
deriving DecidableEq

/-- `class Host`: wraps an underlying host handle. -/
structure Host where
  underlying : UnderlyingHost
deriving DecidableEq

/-- `Deployment.Localhost`: `Localhost(self)`, whose `__init__` calls
`create_LocalhostHost(deployment.underlying)`. -/
def Deployment.Localhost (d : Deployment) : Host :=
  ⟨create_LocalhostHost d.underlying⟩

/-- `class HydroflowCrate(Service)`: wraps an underlying service handle. -/
structure HydroflowCrate where
  underlying : UnderlyingService
deriving DecidableEq

/-- `Deployment.HydroflowCrate`: `HydroflowCrate(src, on, self)`, whose `__init__`
calls `create_HydroflowCrate(src, on.underlying, deployment.underlying)`. -/
def Deployment.mkHydroflowCrate (d : Deployment) (src : String) (host : Host) :
    HydroflowCrate :=
  ⟨create_HydroflowCrate src host.underlying d.underlying⟩

/-- `class HydroflowPort`: stores the underlying service and the port name. -/
structure HydroflowPort where
  underlying : UnderlyingService
  name : String
deriving DecidableEq

/-- `class HydroflowCratePorts`: stores the underlying service of the crate. -/
structure HydroflowCratePorts where
  underlying : UnderlyingService
deriving DecidableEq

/-- `HydroflowCrate.ports` (property): `HydroflowCratePorts(self.underlying)`. -/
def HydroflowCrate.ports (c : HydroflowCrate) : HydroflowCratePorts :=
  ⟨c.underlying⟩

/-- Result of an attribute access on a `HydroflowCratePorts` object: either the
stored underlying service (for the name "underlying") or a port object. The
Python method has no failure branch, so the result type has no error case. -/
inductive PortsAttr
  | underlyingObj (u : UnderlyingService)
  | port (p : HydroflowPort)
deriving DecidableEq

/-- `HydroflowCratePorts.__getattribute__`: returns the stored underlying service
when the name is "underlying", and otherwise constructs
`HydroflowPort(self.underlying, name)` unconditionally. -/
def HydroflowCratePorts.getattribute (ps : HydroflowCratePorts) (name : String) :
    PortsAttr :=
  if name = "underlying" then .underlyingObj ps.underlying
  else .port ⟨ps.underlying, name⟩

/-- Error taxonomy for graph declaration, from the specification (section 7). -/
inductive DeclarationError
  | danglingPortReference
  | duplicateConnectionTarget
  | connectAfterDeploy
deriving DecidableEq

/-- A directed connection edge: source (service, port name) to destination
(service, port name). -/
structure Connection where
  sourceService : UnderlyingService
  sourcePort : String
  destService : UnderlyingService
  destPort : String
deriving DecidableEq

/-- State of the underlying deployment engine visible to connection declaration:
the declared connection graph and whether deploy() has been invoked. -/
structure Engine where
  connections : List Connection
  deployed : Bool
deriving DecidableEq

/-- Modelled from the spec: `hydro_cli_rust.create_connection` registers one
directed Connection edge (source port to destination port); a Connection may
only be declared before deploy(), and declaring one after deploy() fails with
DeclarationError and leaves the graph unchanged. -/
def create_connection (e : Engine) (ss : UnderlyingService) (sp : String)
    (ds : UnderlyingService) (dp : String) : Engine × Option DeclarationError :=
  if e.deployed then (e, some .connectAfterDeploy)
  else ({ e with connections := e.connections ++ [⟨ss, sp, ds, dp⟩] }, none)

/-- `HydroflowPort.send_to`: calls
`create_connection(self.underlying, self.name, other.underlying, other.name)`. -/
def HydroflowPort.send_to (p other : HydroflowPort) (e : Engine) :
    Engine × Option DeclarationError :=
  create_connection e p.underlying p.name other.underlying other.name

/-- Modelled from the spec: `Deployment.deploy` delegates to the underlying
engine; once it has run, the engine records that deploy() has been invoked
(the connection graph itself is not modified by this step of the model). -/
def Engine.deploy (e : Engine) : Engine :=
  { e with deployed := true }

/-- Lifecycle phase of a Host within a Deployment, from the specification
(section 3): declared, provisioned, released. -/
inductive HostPhase
  | declared
  | provisioned
  | released
deriving DecidableEq

/-- A Host as seen by the deploy() orchestration model: `provOk` is the outcome
of the external provisioning capability for this host, `phase` its lifecycle
phase. -/
structure DHost where
  provOk : Bool
  phase : HostPhase
deriving DecidableEq

/-- Modelled from the spec: deploy() provisions every Host; the first
provisioning failure aborts the walk, leaving later hosts untouched. Returns
the updated hosts and whether all provisioning succeeded. -/
def provisionAll : List DHost → List DHost × Bool
  | [] => ([], true)
  | h :: rest =>
    if h.provOk then
      let r := provisionAll rest
      ({ h with phase := .provisioned } :: r.1, r.2)
    else (h :: rest, false)

/-- Modelled from the spec: on a failed deploy(), every resource already
provisioned is deprovisioned before the error is returned. -/
def releaseProvisioned (hs : List DHost) : List DHost :=
  hs.map fun h => if h.phase = .provisioned then { h with phase := .released } else h

/-- Error returned by a failed deploy(). -/
inductive DeployError
  | provisionFailed
deriving DecidableEq

/-- Modelled from the spec: `Deployment.deploy` provisions all Hosts; any single
failure aborts the whole call and every resource already provisioned is
deprovisioned before the error is returned to the caller. -/
def deployHosts (hs : List DHost) : List DHost × Option DeployError :=
  let r := provisionAll hs
  if r.2 then (r.1, none) else (releaseProvisioned r.1, some .provisionFailed)

/-- Provisioning error, from the specification (section 4.1). -/
inductive ProvisionError
  | provisionFailed
deriving DecidableEq

/-- Provisioning state of a single Host: the provisioned state caches the
handle returned by the external capability. -/
inductive HostProvisionState
  | declared
  | provisionedSt (cached : Nat)
  | released
deriving DecidableEq

/-- Modelled from the spec: `Host.provision` delegates to the underlying host;
provision() returns a ProvisionedHandle or a ProvisionError, and is idempotent
if called twice in the provisioned state (returns the cached handle). `ext` is
the outcome the external provisioning capability would give on a fresh call. -/
def Host.provision (ext : Option Nat) : HostProvisionState →
    Except ProvisionError (Nat × HostProvisionState)
  | .declared =>
    match ext with
    | some h => .ok (h, .provisionedSt h)
    | none => .error .provisionFailed
  | .provisionedSt h => .ok (h, .provisionedSt h)
  | .released => .error .provisionFailed

/-- A concrete endpoint handed out at wiring time for one sub-connection of a
demux Connection: the destination port it reaches and the demux key it serves. -/
structure Endpoint where
  destService : UnderlyingService
  destPort : String
  key : Nat
deriving DecidableEq

/-- One physical sub-connection produced by wiring a demux Connection. -/
structure SubConnection where
  sourceService : UnderlyingService
  sourcePort : String
  key : Nat
  endpoint : Endpoint
deriving DecidableEq

/-- Modelled from the spec: wiring a demux Connection produces one physical
sub-connection per mapping entry, all sharing the same source and keyed under
the same logical source port name but carrying distinct per-key endpoints; the
source Service receives a key-to-endpoint mapping as its injected
configuration. -/
def wireDemux (ss : UnderlyingService) (sp : String)
    (mapping : List (Nat × (UnderlyingService × String))) :
    List SubConnection × List (Nat × Endpoint) :=
  (mapping.map fun kv =>
     { sourceService := ss, sourcePort := sp, key := kv.1,
       endpoint := ⟨kv.2.1, kv.2.2, kv.1⟩ },
   mapping.map fun kv => (kv.1, ⟨kv.2.1, kv.2.2, kv.1⟩))

/-- A Service (by id) is ready to launch when every Connection it sources has
its destination already launched (hence confirmed listening). -/
def ready (conns : List (Nat × Nat)) (launched : List Nat) (s : Nat) : Bool :=
  conns.all fun c => decide (c.1 ≠ s) || decide (c.2 ∈ launched)

/-- Modelled from the spec: the launch loop of start(). Each round launches
every pending Service whose Connection destinations are all confirmed
listening; if a round launches nothing while work remains, the graph is cyclic
and no order is produced. `fuel` bounds the number of rounds. -/
def startLoop (conns : List (Nat × Nat)) :
    Nat → List Nat → List Nat → Option (List Nat)
  | 0, launched, pending => if pending.isEmpty then some launched else none
  | fuel + 1, launched, pending =>
    if pending.isEmpty then some launched
    else
      let r := pending.filter (ready conns launched)
      if r.isEmpty then none
      else startLoop conns fuel (launched ++ r)
        (pending.filter fun s => !ready conns launched s)

/-- Modelled from the spec: start() launches all Services in an order in which
every destination is listening before its source launches. -/
def startOrder (services : List Nat) (conns : List (Nat × Nat)) :
    Option (List Nat) :=
  startLoop conns services.length [] services

/-- A launch sequence respects the Connection graph when every Service in it is
launched only after all destinations of the Connections it sources (given the
already-launched prefix `launched`). -/
def launchOk (conns : List (Nat × Nat)) : List Nat → List Nat → Bool
  | _, [] => true
  | launched, s :: rest => ready conns launched s && launchOk conns (launched ++ [s]) rest

lemma ready_iff (conns : List (Nat × Nat)) (launched : List Nat) (s : Nat) :
    ready conns launched s = true ↔ ∀ c ∈ conns, c.1 ≠ s ∨ c.2 ∈ launched := by
  simp [ready, List.all_eq_true]

lemma ready_mono (conns : List (Nat × Nat)) (launched launched' : List Nat) (s : Nat)
    (h : ready conns launched s = true) (hsub : ∀ x ∈ launched, x ∈ launched') :
    ready conns launched' s = true := by
  rw [ready_iff] at h ⊢
  intro c hc
  rcases h c hc with h1 | h2
  · exact Or.inl h1
  · exact Or.inr (hsub _ h2)

lemma launchOk_of_ready (conns : List (Nat × Nat)) (launched : List Nat) :
    ∀ (r acc : List Nat), (∀ s ∈ r, ready conns launched s = true) →
      (∀ x ∈ launched, x ∈ acc) → launchOk conns acc r = true := by
  intro r
  induction r with
  | nil => intro acc _ _; rfl
  | cons s rest ih =>
    intro acc hr hsub
    show (ready conns acc s && launchOk conns (acc ++ [s]) rest) = true
    rw [Bool.and_eq_true]
    refine ⟨ready_mono conns launched acc s (hr s (by simp)) hsub, ?_⟩
    exact ih (acc ++ [s]) (fun t ht => hr t (by simp [ht]))
      (fun x hx => by simp [hsub x hx])

lemma launchOk_append (conns : List (Nat × Nat)) :
    ∀ (l₁ acc l₂ : List Nat),
      launchOk conns acc (l₁ ++ l₂) =
        (launchOk conns acc l₁ && launchOk conns (acc ++ l₁) l₂) := by
  intro l₁
  induction l₁ with
  | nil => intro acc l₂; simp [launchOk]
  | cons s rest ih =>
    intro acc l₂
    show (ready conns acc s && launchOk conns (acc ++ [s]) (rest ++ l₂))
        = ((ready conns acc s && launchOk conns (acc ++ [s]) rest)
            && launchOk conns (acc ++ (s :: rest)) l₂)
    rw [ih (acc ++ [s]) l₂, Bool.and_assoc]
    have hacc : (acc ++ [s]) ++ rest = acc ++ (s :: rest) := by simp
    rw [hacc]

lemma startLoop_sound (conns : List (Nat × Nat)) :
    ∀ (fuel : Nat) (launched pending order : List Nat),
      launchOk conns [] launched = true →
      startLoop conns fuel launched pending = some order →
      launchOk conns [] order = true := by
  intro fuel
  induction fuel with
  | zero =>
    intro launched pending order hinv hrun
    simp only [startLoop] at hrun
    split at hrun
    · cases hrun; exact hinv
    · cases hrun
  | succ fuel ih =>
    intro launched pending order hinv hrun
    simp only [startLoop] at hrun
    split at hrun
    · cases hrun; exact hinv
    · split at hrun
      · cases hrun
      · refine ih _ _ _ ?_ hrun
        rw [launchOk_append, Bool.and_eq_true]
        refine ⟨hinv, ?_⟩
        have hmem : ∀ s ∈ pending.filter (ready conns launched),
            ready conns launched s = true := by
          intro s hs
          exact (List.mem_filter.mp hs).2
        have := launchOk_of_ready conns launched
          (pending.filter (ready conns launched)) launched hmem (fun x hx => hx)
        simpa using this

lemma releaseProvisioned_not_provisioned (hs : List DHost) :
    ∀ x ∈ releaseProvisioned hs, x.phase ≠ HostPhase.provisioned := by
  intro x hx
  simp only [releaseProvisioned, List.mem_map] at hx
  obtain ⟨y, _, rfl⟩ := hx
  by_cases hy : y.phase = HostPhase.provisioned <;> simp [hy]

lemma releaseProvisioned_getElem? (hs : List DHost) (i : Nat) (h₀ : DHost)
    (hget : hs[i]? = some h₀) (hph : h₀.phase = HostPhase.provisioned) :
    (releaseProvisioned hs)[i]? = some { h₀ with phase := HostPhase.released } := by
  simp only [releaseProvisioned, List.getElem?_map, hget]
  simp [hph]

lemma length_filter_lt (p : Nat → Bool) : ∀ (l : List Nat) (x : Nat), x ∈ l → p x = false →
    (l.filter p).length < l.length := by
  intro l
  induction l with
  | nil => intro x hx _; cases hx
  | cons y ys ih =>
    intro x hx hp
    rcases List.mem_cons.mp hx with rfl | hx
    · rw [List.filter_cons, hp]
      simp only [List.length_cons]
      exact Nat.lt_succ_of_le (List.length_filter_le p ys)
    · rw [List.filter_cons]
      by_cases hy : p y
      · simp only [hy, if_pos, List.length_cons]
        exact Nat.succ_lt_succ (ih x hx hp)
      · simp only [hy]
        simp only [List.length_cons]
        exact Nat.lt_succ_of_lt (ih x hx hp)

lemma launchOk_ready_decomp (conns : List (Nat × Nat)) (acc l₁ l₂ : List Nat) (s : Nat)
    (h : launchOk conns acc (l₁ ++ s :: l₂) = true) :
    ready conns (acc ++ l₁) s = true := by
  rw [launchOk_append, Bool.and_eq_true] at h
  have h2 : (ready conns (acc ++ l₁) s
      && launchOk conns ((acc ++ l₁) ++ [s]) l₂) = true := h.2
  exact (Bool.and_eq_true _ _ |>.mp h2).1

lemma exists_ready_of_schedulable (conns : List (Nat × Nat))
    (perm launched pending : List Nat)
    (hok : launchOk conns [] perm = true)
    (hcover : ∀ x ∈ perm, x ∈ launched ∨ x ∈ pending)
    (hsub : ∀ x ∈ pending, x ∈ perm)
    (hne : pending ≠ []) :
    ∃ s ∈ pending, ready conns launched s = true := by
  suffices h : ∀ (rest l₁ : List Nat), perm = l₁ ++ rest → (∀ x ∈ l₁, x ∈ launched) →
      (∃ y ∈ rest, y ∈ pending) → ∃ s ∈ pending, ready conns launched s = true by
    obtain ⟨y, hy⟩ := List.exists_mem_of_ne_nil pending hne
    exact h perm [] rfl (fun x hx => absurd hx (List.not_mem_nil x)) ⟨y, hsub y hy, hy⟩
  intro rest
  induction rest with
  | nil =>
    intro l₁ _ _ hex
    obtain ⟨y, hy, _⟩ := hex
    cases hy
  | cons z rest ih =>
    intro l₁ hperm hl₁ hex
    obtain ⟨y, hyz, hyp⟩ := hex
    by_cases hz : z ∈ pending
    · refine ⟨z, hz, ?_⟩
      have hok2 : launchOk conns [] (l₁ ++ z :: rest) = true := hperm ▸ hok
      have hr : ready conns ([] ++ l₁) z = true :=
        launchOk_ready_decomp conns [] l₁ rest z hok2
      exact ready_mono conns l₁ launched z (by simpa using hr) hl₁
    · have hzperm : z ∈ perm := by rw [hperm]; simp
      have hzl : z ∈ launched := (hcover z hzperm).resolve_right hz
      refine ih (l₁ ++ [z]) ?_ ?_ ?_
      · rw [hperm]; simp
      · intro x hx
        rcases List.mem_append.mp hx with hx | hx
        · exact hl₁ x hx
        · rw [List.mem_singleton] at hx
          subst hx
          exact hzl
      · rcases List.mem_cons.mp hyz with rfl | hyr
        · exact absurd hyp hz
        · exact ⟨y, hyr, hyp⟩

lemma startLoop_complete (conns : List (Nat × Nat)) (perm : List Nat) :
    ∀ (fuel : Nat) (launched pending : List Nat),
      pending.length ≤ fuel →
      launchOk conns [] perm = true →
      (∀ x ∈ perm, x ∈ launched ∨ x ∈ pending) →
      (∀ x ∈ pending, x ∈ perm) →
      ∃ order, startLoop conns fuel launched pending = some order ∧
        ∀ x ∈ perm, x ∈ order := by
  intro fuel
  induction fuel with
  | zero =>
    intro launched pending hlen hok hcover hsub
    have hpe : pending = [] := List.length_eq_zero.mp (Nat.le_zero.mp hlen)
    subst hpe
    refine ⟨launched, by simp [startLoop], ?_⟩
    intro x hx
    rcases hcover x hx with h | h
    · exact h
    · cases h
  | succ fuel ih =>
    intro launched pending hlen hok hcover hsub
    by_cases hpe : pending = []
    · subst hpe
      refine ⟨launched, by simp [startLoop], ?_⟩
      intro x hx
      rcases hcover x hx with h | h
      · exact h
      · cases h
    · obtain ⟨s, hs, hready⟩ :=
        exists_ready_of_schedulable conns perm launched pending hok hcover hsub hpe
      have hlen2 : (pending.filter fun t => !ready conns launched t).length ≤ fuel := by
        have hlt := length_filter_lt (fun t => !ready conns launched t) pending s hs
          (by simp [hready])
        omega
      have hcover2 : ∀ x ∈ perm,
          x ∈ launched ++ pending.filter (ready conns launched) ∨
            x ∈ pending.filter fun t => !ready conns launched t := by
        intro x hx
        rcases hcover x hx with hxl | hxp
        · exact Or.inl (List.mem_append_left _ hxl)
        · by_cases hr : ready conns launched x = true
          · exact Or.inl (List.mem_append_right _ (List.mem_filter.mpr ⟨hxp, hr⟩))
          · exact Or.inr (List.mem_filter.mpr ⟨hxp, by simp [hr]⟩)
      have hsub2 : ∀ x ∈ pending.filter fun t => !ready conns launched t, x ∈ perm := by
        intro x hx
        exact hsub x (List.mem_filter.mp hx).1
      obtain ⟨order, horder, hmem⟩ :=
        ih (launched ++ pending.filter (ready conns launched))
          (pending.filter fun t => !ready conns launched t) hlen2 hok hcover2 hsub2
      refine ⟨order, ?_, hmem⟩
      have h1 : pending.isEmpty = false := by
        rcases pending with _ | ⟨a, as⟩
        · exact absurd rfl hpe
        · rfl
      have h2 : (pending.filter (ready conns launched)).isEmpty = false := by
        have hsmem : s ∈ pending.filter (ready conns launched) :=
          List.mem_filter.mpr ⟨hs, hready⟩
        rcases hflt : pending.filter (ready conns launched) with _ | ⟨a, as⟩
        · rw [hflt] at hsmem; cases hsmem
        · rfl
      simp only [startLoop, h1, Bool.false_eq_true, if_false, h2]
      exact horder

/-- Claim C1 counterexample: referencing an undeclared port name on a ports
object does not fail with DeclarationError; a Port object is implicitly
created for it. Concretely, on a crate with underlying service
create_HydroflowCrate "app" (create_LocalhostHost 0) 0, accessing the name
"undeclared_port" yields a freshly constructed HydroflowPort. -/
theorem C1_counterexample :
    HydroflowCratePorts.getattribute
        ⟨create_HydroflowCrate "app" (create_LocalhostHost 0) 0⟩ "undeclared_port"
      = PortsAttr.port
          ⟨create_HydroflowCrate "app" (create_LocalhostHost 0) 0, "undeclared_port"⟩ := by
  rfl

/-- Claim C1 (amended): for every Service s and every port name n other than
"underlying", referencing s.ports.n succeeds and implicitly constructs a fresh
HydroflowPort for n, whether or not n was ever declared; no DeclarationError
is raised and no declared-port list is consulted. -/
theorem C1_ports_access_always_creates (c : HydroflowCrate) (n : String)
    (h : n ≠ "underlying") :
    (c.ports).getattribute n = PortsAttr.port ⟨c.underlying, n⟩ := by
  simp [HydroflowCrate.ports, HydroflowCratePorts.getattribute, h]

/-- Witness for claim C1 at a concrete crate and the port name "broadcast". -/
theorem C1_ports_access_always_creates_witness :
    ("broadcast" : String) ≠ "underlying" ∧
      (HydroflowCrate.ports
          ⟨create_HydroflowCrate "app" (create_LocalhostHost 0) 0⟩).getattribute
          "broadcast"
        = PortsAttr.port
            ⟨create_HydroflowCrate "app" (create_LocalhostHost 0) 0, "broadcast"⟩ :=
  ⟨by decide,
   C1_ports_access_always_creates
     ⟨create_HydroflowCrate "app" (create_LocalhostHost 0) 0⟩ "broadcast" (by decide)⟩

/-- Claim C2: once deploy() has been invoked on a Deployment, declaring a
Connection via send_to on any pair of ports fails with
DeclarationError.connectAfterDeploy and the Connection graph is left
unchanged. -/
theorem C2_connect_after_deploy_fails (p q : HydroflowPort) (e : Engine) :
    (p.send_to q e.deploy).2 = some DeclarationError.connectAfterDeploy ∧
      (p.send_to q e.deploy).1.connections = e.connections := by
  simp [HydroflowPort.send_to, create_connection, Engine.deploy]

/-- Witness for claim C2 at a concrete engine state and ports. -/
theorem C2_connect_after_deploy_fails_witness :
    (HydroflowPort.send_to
        ⟨create_HydroflowCrate "a" (create_LocalhostHost 0) 0, "out"⟩
        ⟨create_HydroflowCrate "b" (create_LocalhostHost 0) 0, "in"⟩
        (Engine.deploy ⟨[], false⟩)).2
      = some DeclarationError.connectAfterDeploy ∧
      (HydroflowPort.send_to
          ⟨create_HydroflowCrate "a" (create_LocalhostHost 0) 0, "out"⟩
          ⟨create_HydroflowCrate "b" (create_LocalhostHost 0) 0, "in"⟩
          (Engine.deploy ⟨[], false⟩)).1.connections
        = ([] : List Connection) :=
  C2_connect_after_deploy_fails
    ⟨create_HydroflowCrate "a" (create_LocalhostHost 0) 0, "out"⟩
    ⟨create_HydroflowCrate "b" (create_LocalhostHost 0) 0, "in"⟩ ⟨[], false⟩

/-- Claim C3: if deploy() returns an error, no Host in the final state is left
in the provisioned phase, and every Host that had reached the provisioned
phase before the error has reached the released phase by the time deploy()
returns. -/
theorem C3_failed_deploy_releases_hosts (hs finals : List DHost) (err : DeployError)
    (hrun : deployHosts hs = (finals, some err)) :
    (∀ x ∈ finals, x.phase ≠ HostPhase.provisioned) ∧
      (∀ (i : Nat) (h₀ : DHost), (provisionAll hs).1[i]? = some h₀ →
        h₀.phase = HostPhase.provisioned →
        finals[i]? = some { h₀ with phase := HostPhase.released }) := by
  have hfin : finals = releaseProvisioned (provisionAll hs).1 := by
    simp only [deployHosts] at hrun
    split at hrun
    · rw [Prod.mk.injEq] at hrun
      exact absurd hrun.2 (by simp)
    · rw [Prod.mk.injEq] at hrun
      exact hrun.1.symm
  subst hfin
  refine ⟨releaseProvisioned_not_provisioned _, ?_⟩
  intro i h₀ hget hph
  exact releaseProvisioned_getElem? _ i h₀ hget hph

/-- Witness for claim C3 at a concrete host list where the second host fails
to provision. -/
theorem C3_failed_deploy_releases_hosts_witness :
    deployHosts
        [⟨true, HostPhase.declared⟩, ⟨false, HostPhase.declared⟩]
      = ([⟨true, HostPhase.released⟩, ⟨false, HostPhase.declared⟩],
         some DeployError.provisionFailed) ∧
      (∀ x ∈ [(⟨true, HostPhase.released⟩ : DHost), ⟨false, HostPhase.declared⟩],
        x.phase ≠ HostPhase.provisioned) :=
  ⟨by decide,
   (C3_failed_deploy_releases_hosts
      [⟨true, HostPhase.declared⟩, ⟨false, HostPhase.declared⟩]
      [⟨true, HostPhase.released⟩, ⟨false, HostPhase.declared⟩]
      DeployError.provisionFailed (by decide)).1⟩

/-- Claim C4: for every acyclic Connection graph (witnessed by a permutation
of the services that respects the Connection edges), start() produces a global
launch order covering every Service, and that order is a topological sort of
the Connection graph with destinations launched before sources: every Service
is launched only after every Service it depends on as a Connection destination
already appears earlier in the order (hence is confirmed listening). -/
theorem C4_start_topological (services : List Nat) (conns : List (Nat × Nat))
    (perm : List Nat) (hperm : perm.Perm services)
    (hok : launchOk conns [] perm = true) :
    ∃ order, startOrder services conns = some order ∧
      launchOk conns [] order = true ∧ ∀ x ∈ services, x ∈ order := by
  obtain ⟨order, horder, hmem⟩ :=
    startLoop_complete conns perm services.length [] services (Nat.le_refl _) hok
      (fun x hx => Or.inr (hperm.mem_iff.mp hx))
      (fun x hx => hperm.mem_iff.mpr hx)
  exact ⟨order, horder,
    startLoop_sound conns services.length [] services order rfl horder,
    fun x hx => hmem x (hperm.mem_iff.mpr hx)⟩

/-- Witness for claim C4 on the two-service graph where service 1 sends to
service 2: the produced order launches the destination 2 before the source 1. -/
theorem C4_start_topological_witness :
    ([2, 1] : List Nat).Perm [1, 2] ∧ launchOk [(1, 2)] [] [2, 1] = true ∧
      ∃ order, startOrder [1, 2] [(1, 2)] = some order ∧
        launchOk [(1, 2)] [] order = true ∧ ∀ x ∈ [1, 2], x ∈ order :=
  ⟨by decide, by decide,
   C4_start_topological [1, 2] [(1, 2)] [2, 1] (by decide) (by decide)⟩

/-- Claim C5: wiring a demux Connection whose mapping has (distinct) key set K
produces exactly one physical sub-connection per key, all sharing the same
source service and logical source port name, with pairwise distinct per-key
endpoints, and the injected source configuration carries an endpoint entry for
every key in K. -/
theorem C5_demux_wiring (ss : UnderlyingService) (sp : String)
    (mapping : List (Nat × (UnderlyingService × String)))
    (h : (mapping.map Prod.fst).Nodup) :
    ((wireDemux ss sp mapping).1.length = mapping.length) ∧
      (∀ c ∈ (wireDemux ss sp mapping).1,
        c.sourceService = ss ∧ c.sourcePort = sp) ∧
      ((wireDemux ss sp mapping).1.map SubConnection.endpoint).Nodup ∧
      ((wireDemux ss sp mapping).2.map Prod.fst = mapping.map Prod.fst) := by
  refine ⟨by simp [wireDemux], ?_, ?_, by simp [wireDemux]⟩
  · intro c hc
    simp only [wireDemux, List.mem_map] at hc
    obtain ⟨kv, _, rfl⟩ := hc
    exact ⟨rfl, rfl⟩
  · have hkeys : ((wireDemux ss sp mapping).1.map SubConnection.endpoint).map
        Endpoint.key = mapping.map Prod.fst := by
      simp [wireDemux, Function.comp]
    exact List.Nodup.of_map Endpoint.key (by rw [hkeys]; exact h)

/-- Witness for claim C5 at the specification example: a demux with key set
{0, 1, 2} over three receiver services. -/
theorem C5_demux_wiring_witness :
    (([(0, (create_HydroflowCrate "r0" (create_LocalhostHost 0) 0, "broadcast")),
       (1, (create_HydroflowCrate "r1" (create_LocalhostHost 0) 0, "broadcast")),
       (2, (create_HydroflowCrate "r2" (create_LocalhostHost 0) 0, "broadcast"))].map
        Prod.fst).Nodup) ∧
      ((wireDemux (create_HydroflowCrate "s" (create_LocalhostHost 0) 0) "broadcast"
          [(0, (create_HydroflowCrate "r0" (create_LocalhostHost 0) 0, "broadcast")),
           (1, (create_HydroflowCrate "r1" (create_LocalhostHost 0) 0, "broadcast")),
           (2, (create_HydroflowCrate "r2" (create_LocalhostHost 0) 0, "broadcast"))]).1.length
        = 3) :=
  ⟨by decide,
   (C5_demux_wiring (create_HydroflowCrate "s" (create_LocalhostHost 0) 0) "broadcast"
      [(0, (create_HydroflowCrate "r0" (create_LocalhostHost 0) 0, "broadcast")),
       (1, (create_HydroflowCrate "r1" (create_LocalhostHost 0) 0, "broadcast")),
       (2, (create_HydroflowCrate "r2" (create_LocalhostHost 0) 0, "broadcast"))]
      (by decide)).1⟩

/-- Claim C6: provision() is idempotent in the provisioned state: any call that
returned a handle leaves the host in the provisioned state caching that
handle, and every later call returns the same cached handle and state,
regardless of what a fresh external provisioning call would produce. -/
theorem C6_provision_idempotent (ext ext' : Option Nat)
    (st st' : HostProvisionState) (h : Nat)
    (hcall : Host.provision ext st = .ok (h, st')) :
    Host.provision ext' st' = .ok (h, st') := by
  cases st with
  | declared =>
    cases ext with
    | some k =>
      simp only [Host.provision] at hcall
      rw [Except.ok.injEq, Prod.mk.injEq] at hcall
      obtain ⟨rfl, rfl⟩ := hcall
      rfl
    | none => simp only [Host.provision] at hcall; cases hcall
  | provisionedSt k =>
    simp only [Host.provision] at hcall
    rw [Except.ok.injEq, Prod.mk.injEq] at hcall
    obtain ⟨rfl, rfl⟩ := hcall
    rfl
  | released => simp only [Host.provision] at hcall; cases hcall

/-- Witness for claim C6: a first provision() caches handle 5; a second call in
the provisioned state returns the same cached handle even though the external
capability would now fail. -/
theorem C6_provision_idempotent_witness :
    Host.provision (some 5) HostProvisionState.declared
        = .ok (5, HostProvisionState.provisionedSt 5) ∧
      Host.provision none (HostProvisionState.provisionedSt 5)
        = .ok (5, HostProvisionState.provisionedSt 5) :=
  ⟨rfl,
   C6_provision_idempotent (some 5) none HostProvisionState.declared
     (HostProvisionState.provisionedSt 5) 5 rfl⟩

/-- Claim C7: before deploy(), p.send_to(q) registers exactly one directed
Connection, whose source is (the underlying service of p, the name of p) and
whose destination is (the underlying service of q, the name of q), appended to
the existing graph, and no error is raised. -/
theorem C7_send_to_single_edge (p q : HydroflowPort) (e : Engine)
    (h : e.deployed = false) :
    (p.send_to q e).1.connections
        = e.connections ++ [⟨p.underlying, p.name, q.underlying, q.name⟩] ∧
      (p.send_to q e).2 = none := by
  simp [HydroflowPort.send_to, create_connection, h]

/-- Witness for claim C7 at concrete ports on an empty, undeployed engine. -/
theorem C7_send_to_single_edge_witness :
    (HydroflowPort.send_to
        ⟨create_HydroflowCrate "a" (create_LocalhostHost 0) 0, "out"⟩
        ⟨create_HydroflowCrate "b" (create_LocalhostHost 0) 0, "in"⟩
        ⟨[], false⟩).1.connections
      = [⟨create_HydroflowCrate "a" (create_LocalhostHost 0) 0, "out",
          create_HydroflowCrate "b" (create_LocalhostHost 0) 0, "in"⟩] ∧
      (HydroflowPort.send_to
          ⟨create_HydroflowCrate "a" (create_LocalhostHost 0) 0, "out"⟩
          ⟨create_HydroflowCrate "b" (create_LocalhostHost 0) 0, "in"⟩
          ⟨[], false⟩).2 = none :=
  C7_send_to_single_edge
    ⟨create_HydroflowCrate "a" (create_LocalhostHost 0) 0, "out"⟩
    ⟨create_HydroflowCrate "b" (create_LocalhostHost 0) 0, "in"⟩ ⟨[], false⟩ rfl

/-- Claim C8: for every port name n other than "underlying", the Port obtained
from the ports accessor of a crate has underlying equal to the underlying
service of the crate and name equal to n, and the Port is fully determined by
the pair (underlying service, port name): two crates with the same underlying
service yield identical Ports for the same name. -/
theorem C8_port_identity (c c' : HydroflowCrate) (n : String)
    (h : n ≠ "underlying") :
    (∃ p : HydroflowPort, (c.ports).getattribute n = PortsAttr.port p ∧
        p.underlying = c.underlying ∧ p.name = n) ∧
      (c.underlying = c'.underlying →
        (c.ports).getattribute n = (c'.ports).getattribute n) := by
  constructor
  · exact ⟨⟨c.underlying, n⟩,
      by simp [HydroflowCrate.ports, HydroflowCratePorts.getattribute, h], rfl, rfl⟩
  · intro he
    simp [HydroflowCrate.ports, he]

/-- Witness for claim C8 at a concrete crate and the port name "p1b". -/
theorem C8_port_identity_witness :
    ("p1b" : String) ≠ "underlying" ∧
      (∃ p : HydroflowPort,
        (HydroflowCrate.ports
            ⟨create_HydroflowCrate "app" (create_LocalhostHost 0) 0⟩).getattribute "p1b"
          = PortsAttr.port p ∧
        p.underlying = create_HydroflowCrate "app" (create_LocalhostHost 0) 0 ∧
        p.name = "p1b") :=
  ⟨by decide,
   (C8_port_identity ⟨create_HydroflowCrate "app" (create_LocalhostHost 0) 0⟩
      ⟨create_HydroflowCrate "app" (create_LocalhostHost 0) 0⟩ "p1b" (by decide)).1⟩

/-- Claim C9: every Host and Service constructor receives its owning Deployment
explicitly: Localhost is built from the underlying deployment of d, and a
HydroflowCrate is built from the source, the underlying host and the
underlying deployment of d; the results depend on nothing but those explicit
arguments (two Deployments with the same underlying handle produce identical
hosts and services). -/
theorem C9_explicit_deployment_passing (d d' : Deployment) (src : String)
    (host : Host) (h : d.underlying = d'.underlying) :
    d.Localhost.underlying = create_LocalhostHost d.underlying ∧
      (d.mkHydroflowCrate src host).underlying
        = create_HydroflowCrate src host.underlying d.underlying ∧
      d.Localhost = d'.Localhost ∧
      d.mkHydroflowCrate src host = d'.mkHydroflowCrate src host := by
  refine ⟨rfl, rfl, ?_, ?_⟩ <;>
    simp [Deployment.Localhost, Deployment.mkHydroflowCrate, h]

/-- Witness for claim C9 at a concrete deployment, source and host. -/
theorem C9_explicit_deployment_passing_witness :
    (Deployment.underlying ⟨7⟩ = Deployment.underlying ⟨7⟩) ∧
      (Deployment.Localhost ⟨7⟩).underlying = create_LocalhostHost 7 ∧
      (Deployment.mkHydroflowCrate ⟨7⟩ "app"
          ⟨create_LocalhostHost 7⟩).underlying
        = create_HydroflowCrate "app" (create_LocalhostHost 7) 7 :=
  ⟨rfl,
   (C9_explicit_deployment_passing ⟨7⟩ ⟨7⟩ "app" ⟨create_LocalhostHost 7⟩ rfl).1,
   (C9_explicit_deployment_passing ⟨7⟩ ⟨7⟩ "app" ⟨create_LocalhostHost 7⟩ rfl).2.1⟩

/-- Claim C10: attribute access on a HydroflowCratePorts object is total: for
the name "underlying" it returns the stored underlying service, for any other
name (declared or not) it returns a freshly constructed HydroflowPort, and no
access ever returns a Port named "underlying". -/
theorem C10_getattribute_total (ps : HydroflowCratePorts) (n : String) :
    (n = "underlying" →
        ps.getattribute n = PortsAttr.underlyingObj ps.underlying) ∧
      (n ≠ "underlying" →
        ps.getattribute n = PortsAttr.port ⟨ps.underlying, n⟩) ∧
      (∀ p : HydroflowPort, ps.getattribute n = PortsAttr.port p →
        p.name ≠ "underlying") := by
  refine ⟨fun h => by simp [HydroflowCratePorts.getattribute, h],
    fun h => by simp [HydroflowCratePorts.getattribute, h], ?_⟩
  intro p hp
  unfold HydroflowCratePorts.getattribute at hp
  split at hp
  · cases hp
  · rename_i hne
    rw [PortsAttr.port.injEq] at hp
    rw [← hp]
    exact hne

/-- Witness for claim C10 at a concrete ports object and both kinds of name. -/
theorem C10_getattribute_total_witness :
    (HydroflowCratePorts.getattribute
        ⟨create_HydroflowCrate "app" (create_LocalhostHost 0) 0⟩ "underlying"
      = PortsAttr.underlyingObj
          (create_HydroflowCrate "app" (create_LocalhostHost 0) 0)) ∧
      (HydroflowCratePorts.getattribute
          ⟨create_HydroflowCrate "app" (create_LocalhostHost 0) 0⟩ "inputs"
        = PortsAttr.port
            ⟨create_HydroflowCrate "app" (create_LocalhostHost 0) 0, "inputs"⟩) :=
  ⟨(C10_getattribute_total
      ⟨create_HydroflowCrate "app" (create_LocalhostHost 0) 0⟩ "underlying").1 rfl,
   (C10_getattribute_total
      ⟨create_HydroflowCrate "app" (create_LocalhostHost 0) 0⟩ "inputs").2.1
     (by decide)⟩
